import Mathlib

/-!
# Verification of the lifxi HTTP client core

A shallow embedding of the selector algebra (src/http/selector.rs), the
color/state grammar (src/http/state.rs) and the request execution engine
(src/http/client/mod.rs), with theorems settling the specification claims.

Rust strings are modelled as `List Char`; machine integers (`u8`, `u16`,
`u64`) as `Nat` with explicit bounds where the code checks them; `f32`
values as exact rationals plus the non-finite values (`F32m`).  Clock
readings (`SystemTime`, `Instant`) are modelled in whole seconds, the unit
the code itself works in.
-/

namespace Lifxi

/-- Model of Rust `char::is_whitespace`: the Unicode `White_Space` property,
whose members are U+0009–U+000D, U+0020, U+0085, U+00A0, U+1680,
U+2000–U+200A, U+2028, U+2029, U+202F, U+205F and U+3000. -/
def isRustWhitespace (c : Char) : Bool :=
  c = '\u0009' || c = '\u000A' || c = '\u000B' || c = '\u000C' || c = '\u000D' ||
  c = ' ' || c = '\u0085' || c = '\u00A0' || c = '\u1680' ||
  ('\u2000' ≤ c && c ≤ '\u200A') ||
  c = '\u2028' || c = '\u2029' || c = '\u202F' || c = '\u205F' || c = '\u3000'

/-- Model of Rust `str::trim` on a character list. -/
def rustTrim (s : List Char) : List Char :=
  ((s.dropWhile isRustWhitespace).reverse.dropWhile isRustWhitespace).reverse

/-- Model of Rust `str::len`: the length in UTF-8 bytes, not characters. -/
def utf8Len (s : List Char) : Nat := (s.map Char.utf8Size).sum

/-- Full split on a separator character, as Rust's `split(c)` iterator:
`n` separators yield `n + 1` (possibly empty) parts. -/
def splitAll (c : Char) : List Char → List (List Char)
  | [] => [[]]
  | x :: xs =>
    if x = c then [] :: splitAll c xs
    else
      match splitAll c xs with
      | [] => [[x]]
      | p :: ps => (x :: p) :: ps

/-! ## The Selector enum (src/http/selector.rs) -/

/-- The `Selector` enum; string payloads are character lists. -/
inductive Selector
  | all
  | label (name : List Char)
  | id (serial : List Char)
  | groupId (gid : List Char)
  | group (name : List Char)
  | locationId (lid : List Char)
  | location (name : List Char)
  | sceneId (sid : List Char)
  deriving DecidableEq

/-- The `Display` impl for `Selector`. -/
def Selector.render : Selector → List Char
  | .all => "all".data
  | .label s => "label:".data ++ s
  | .id s => "id:".data ++ s
  | .groupId s => "group_id:".data ++ s
  | .group s => "group:".data ++ s
  | .locationId s => "location_id:".data ++ s
  | .location s => "location:".data ++ s
  | .sceneId s => "scene_id:".data ++ s

/-- The `SelectorParseError` enum. -/
inductive SelectorParseError
  | noLabel
  | noValue
  | unknownLabel
  deriving DecidableEq

/-- The `FromStr` impl for `Selector`.  The source takes the first two items
of `s.split(':')`: the first is the label (`noLabel` would require the split
iterator to be empty, which is modelled by `splitAll` returning `[]`), the
second — the text between the first and second colon — is trimmed and used
as the value. -/
def Selector.fromStr (s : List Char) : Except SelectorParseError Selector :=
  if s = "all".data then .ok .all
  else
    match splitAll ':' s with
    | [] => .error .noLabel
    | [_] => .error .noValue
    | lab :: value :: _ =>
      let v := rustTrim value
      if lab = "label".data then .ok (.label v)
      else if lab = "id".data then .ok (.id v)
      else if lab = "group_id".data then .ok (.groupId v)
      else if lab = "group".data then .ok (.group v)
      else if lab = "location_id".data then .ok (.locationId v)
      else if lab = "location".data then .ok (.location v)
      else if lab = "scene_id".data then .ok (.sceneId v)
      else .error .unknownLabel

/-- A payload survives the parser untouched iff it has no colon (the parser
keeps only the text between the first two colons) and is trim-stable (the
parser trims the value). -/
def cleanPayload (p : List Char) : Bool :=
  decide (':' ∉ p) && decide (rustTrim p = p)

/-- Whether every payload of the selector is `cleanPayload`. -/
def Selector.clean : Selector → Bool
  | .all => true
  | .label p => cleanPayload p
  | .id p => cleanPayload p
  | .groupId p => cleanPayload p
  | .group p => cleanPayload p
  | .locationId p => cleanPayload p
  | .location p => cleanPayload p
  | .sceneId p => cleanPayload p

/-! ## Zones, Zoned, Random (src/http/selector.rs) -/

/-- The `Zones` struct: an ordered list of zone indices (u8 values). -/
structure Zones where
  list : List Nat
  deriving DecidableEq

/-- `From<Range<u8>>`: `start..stop` collected in ascending order. -/
def Zones.ofRange (start stop : Nat) : Zones := ⟨List.range' start (stop - start)⟩

/-- `From<RangeInclusive<u8>>`: `start..=stop` collected in ascending order. -/
def Zones.ofRangeInclusive (start stop : Nat) : Zones :=
  ⟨List.range' start (stop + 1 - start)⟩

/-- `From<RangeFrom<u8>>`: `start..` becomes `start..=255`. -/
def Zones.ofRangeFrom (start : Nat) : Zones := Zones.ofRangeInclusive start 255

/-- `From<RangeTo<u8>>`: `..stop` becomes `0..stop`. -/
def Zones.ofRangeTo (stop : Nat) : Zones := Zones.ofRange 0 stop

/-- `From<RangeToInclusive<u8>>`: `..=stop` becomes `0..=stop`. -/
def Zones.ofRangeToInclusive (stop : Nat) : Zones := Zones.ofRangeInclusive 0 stop

/-- `From<u8>`: a single zone. -/
def Zones.ofSingle (z : Nat) : Zones := ⟨[z]⟩

/-- The `Zoned` struct: a selector constrained to zones. -/
structure Zoned where
  selector : Selector
  zoning : Zones
  deriving DecidableEq

/-- Decimal rendering of a zone index, as Rust's `Display` for `u8`. -/
def renderNat (n : Nat) : List Char := Nat.toDigits 10 n

/-- The `Display` impl for `Zoned`: the base selector, then `|z` per zone, in
list order. -/
def Zoned.render (z : Zoned) : List Char :=
  z.selector.render ++ (z.zoning.list.map (fun n => '|' :: renderNat n)).flatten

/-- `Selector::zoned`. -/
def Selector.zoned (s : Selector) (z : Zones) : Zoned := ⟨s, z⟩

/-- The two `PureSelect` implementors (`Selector` and `Zoned`) over which
`Random<T>` is generic. -/
inductive PureSel
  | sel (s : Selector)
  | zon (z : Zoned)
  deriving DecidableEq

def PureSel.render : PureSel → List Char
  | .sel s => s.render
  | .zon z => z.render

/-- The `Random<T>` wrapper produced by `Randomize::random`. -/
structure Random where
  inner : PureSel
  deriving DecidableEq

/-- The `Display` impl for `Random<T>`: the inner rendering plus `:random`. -/
def Random.render (r : Random) : List Char := r.inner.render ++ ":random".data

/-! ## Numeric parsing (models of Rust `from_str` for unsigned ints, f32) -/

/-- The kinds of `std::num::ParseIntError` that unsigned parsing produces. -/
inductive ParseIntErrorKind
  | empty
  | invalidDigit
  | posOverflow
  deriving DecidableEq

/-- Digit accumulation with per-step bound check, as Rust's `from_str_radix`
loop (`checked_mul`/`checked_add`, radix 10): the first digit overflowing the
type bound reports an overflow, a non-digit reports an invalid digit. -/
def parseUIntCore (bound : Nat) : Nat → List Char → Except ParseIntErrorKind Nat
  | acc, [] => .ok acc
  | acc, c :: cs =>
    if c.isDigit then
      let acc' := acc * 10 + (c.toNat - '0'.toNat)
      if acc' < bound then parseUIntCore bound acc' cs
      else .error .posOverflow
    else .error .invalidDigit

/-- Rust `u8`/`u16`/`u64 :: from_str`: an optional leading `+`, then one or
more ASCII digits, value below `bound` (a leading `-` on an unsigned type is
an invalid digit). -/
def parseUInt (bound : Nat) (s : List Char) : Except ParseIntErrorKind Nat :=
  match s with
  | [] => .error .empty
  | '+' :: rest =>
    if rest = [] then .error .empty else parseUIntCore bound 0 rest
  | '-' :: _ => .error .invalidDigit
  | _ => parseUIntCore bound 0 s

/-- The kinds of `std::num::ParseFloatError`. -/
inductive ParseFloatErrorKind
  | empty
  | invalid
  deriving DecidableEq

/-- Model of an `f32` value: a finite value is carried as the exact rational
its decimal source denotes (the rounding to the nearest binary float is not
modelled; every value the claims touch is handled identically either way),
plus the non-finite values. -/
inductive F32m
  | num (q : ℚ)
  | posInf
  | negInf
  | nan
  deriving DecidableEq

/-- The partial-order `>` against a rational bound, as f32 `PartialOrd`
(`nan` compares false against everything). -/
def F32m.gtQ : F32m → ℚ → Bool
  | .num q, r => decide (r < q)
  | .posInf, _ => true
  | .negInf, _ => false
  | .nan, _ => false

/-- The partial-order `<` against a rational bound, as f32 `PartialOrd`. -/
def F32m.ltQ : F32m → ℚ → Bool
  | .num q, r => decide (q < r)
  | .posInf, _ => false
  | .negInf, _ => true
  | .nan, _ => false

/-- Value of a list of ASCII digits. -/
def digitsToNat (ds : List Char) : Nat :=
  ds.foldl (fun a c => a * 10 + (c.toNat - '0'.toNat)) 0

/-- Parses the optional exponent suffix of an f32 literal (everything after
the mantissa): empty means exponent 0; otherwise `e`/`E`, an optional sign
and one or more digits. -/
def parseExp : List Char → Option ℤ
  | [] => some 0
  | e :: r =>
    if e = 'e' ∨ e = 'E' then
      let core : Bool → List Char → Option ℤ := fun neg ds =>
        if ds ≠ [] ∧ ds.all Char.isDigit then
          some (if neg then -(digitsToNat ds : ℤ) else (digitsToNat ds : ℤ))
        else none
      match r with
      | '+' :: t => core false t
      | '-' :: t => core true t
      | t => core false t
    else none

/-- Parses an unsigned decimal f32 mantissa with optional exponent:
`Digits [. Digits?] Exp?` or `. Digits Exp?` (Rust `f32::from_str` grammar
without sign and special values). -/
def parseDecimal (body : List Char) : Option ℚ :=
  let ip := body.takeWhile Char.isDigit
  let rest := body.drop ip.length
  match rest with
  | '.' :: r2 =>
    let fp := r2.takeWhile Char.isDigit
    let rest2 := r2.drop fp.length
    if ip = [] ∧ fp = [] then none
    else
      (parseExp rest2).map fun e =>
        ((digitsToNat ip : ℚ) + (digitsToNat fp : ℚ) / ((10 : ℚ) ^ fp.length)) * (10 : ℚ) ^ e
  | _ =>
    if ip = [] then none
    else (parseExp rest).map fun e => (digitsToNat ip : ℚ) * (10 : ℚ) ^ e

/-- Rust `f32::from_str`: optional sign, then (case-insensitively) `inf`,
`infinity`, `nan`, or a decimal number. -/
def parseF32 (s : List Char) : Except ParseFloatErrorKind F32m :=
  match s with
  | [] => .error .empty
  | _ =>
    let signed : Bool × List Char :=
      match s with
      | '+' :: r => (false, r)
      | '-' :: r => (true, r)
      | r => (false, r)
    let neg := signed.1
    let body := signed.2
    let lower := body.map Char.toLower
    if lower = "inf".data ∨ lower = "infinity".data then
      .ok (if neg then .negInf else .posInf)
    else if lower = "nan".data then .ok .nan
    else
      match parseDecimal body with
      | some q => .ok (.num (if neg then -q else q))
      | none => .error .invalid

/-! ## The Color enum (src/http/state.rs) -/

/-- The `Color` enum.  `hue`/`kelvin` carry `u16` values, `rgb` carries
`[u8; 3]`, the f32 fields use the `F32m` model. -/
inductive Color
  | red
  | orange
  | yellow
  | green
  | blue
  | purple
  | pink
  | white
  | hue (h : Nat)
  | saturation (s : F32m)
  | brightness (b : F32m)
  | kelvin (k : Nat)
  | rgb (r g b : Nat)
  | rgbStr (s : List Char)
  | custom (s : List Char)
  deriving DecidableEq

/-- The `ColorParseError` enum; the wrapped payloads carry the kind of the
underlying numeric parse error. -/
inductive ColorParseError
  | noHue
  | nonNumericHue (e : ParseIntErrorKind)
  | noSaturation
  | nonNumericSaturation (e : ParseFloatErrorKind)
  | noBrightness
  | nonNumericBrightness (e : ParseFloatErrorKind)
  | noKelvin
  | nonNumericKelvin (e : ParseIntErrorKind)
  | noRed
  | nonNumericRed (e : ParseIntErrorKind)
  | noGreen
  | nonNumericGreen (e : ParseIntErrorKind)
  | noBlue
  | nonNumericBlue (e : ParseIntErrorKind)
  | shortString
  | longString
  deriving DecidableEq

/-- Models `s.split(':').nth(1)`: the text between the first and second
colon, or `none` when the string has no colon. -/
def secondSegment (c : Char) (s : List Char) : Option (List Char) :=
  match splitAll c s with
  | _ :: v :: _ => some v
  | _ => none

/-- The `hue:` arm of `Color::from_str`: empty (after trim) value is the
missing-value error, otherwise `u16` parsing with the error wrapped. -/
def hueArm (s : List Char) : Except ColorParseError Color :=
  match secondSegment ':' s with
  | some spec =>
    if rustTrim spec = [] then .error .noHue
    else
      match parseUInt 65536 spec with
      | .ok v => .ok (.hue v)
      | .error e => .error (.nonNumericHue e)
  | none => .error .noHue

/-- The `saturation:` arm of `Color::from_str`. -/
def saturationArm (s : List Char) : Except ColorParseError Color :=
  match secondSegment ':' s with
  | some spec =>
    if rustTrim spec = [] then .error .noSaturation
    else
      match parseF32 spec with
      | .ok v => .ok (.saturation v)
      | .error e => .error (.nonNumericSaturation e)
  | none => .error .noSaturation

/-- The `brightness:` arm of `Color::from_str`. -/
def brightnessArm (s : List Char) : Except ColorParseError Color :=
  match secondSegment ':' s with
  | some spec =>
    if rustTrim spec = [] then .error .noBrightness
    else
      match parseF32 spec with
      | .ok v => .ok (.brightness v)
      | .error e => .error (.nonNumericBrightness e)
  | none => .error .noBrightness

/-- The `kelvin:` arm of `Color::from_str`. -/
def kelvinArm (s : List Char) : Except ColorParseError Color :=
  match secondSegment ':' s with
  | some spec =>
    if rustTrim spec = [] then .error .noKelvin
    else
      match parseUInt 65536 spec with
      | .ok v => .ok (.kelvin v)
      | .error e => .error (.nonNumericKelvin e)
  | none => .error .noKelvin

/-- The `rgb:` arm of `Color::from_str`: the remainder splits on commas into
the red, green and blue components; emptiness of all three is checked before
any numeric parse, and each component has its own error variants.  The
components are parsed as `u8`; a fourth component, if present, is ignored
(the source only ever calls `parts.next()` three times). -/
def rgbArm (s : List Char) : Except ColorParseError Color :=
  match secondSegment ':' s with
  | none => .error .noRed
  | some parts =>
    match splitAll ',' parts with
    | [] => .error .noRed
    | r :: rest =>
      if rustTrim r = [] then .error .noRed
      else
        match rest with
        | [] => .error .noGreen
        | g :: rest2 =>
          if rustTrim g = [] then .error .noGreen
          else
            match rest2 with
            | [] => .error .noBlue
            | b :: _ =>
              if rustTrim b = [] then .error .noBlue
              else
                match parseUInt 256 r with
                | .error e => .error (.nonNumericRed e)
                | .ok rv =>
                  match parseUInt 256 g with
                  | .error e => .error (.nonNumericGreen e)
                  | .ok gv =>
                    match parseUInt 256 b with
                    | .error e => .error (.nonNumericBlue e)
                    | .ok bv => .ok (.rgb rv gv bv)

/-- The final arm of `Color::from_str`: an unrecognized string is read as an
RGB hex specifier checked only for its `s.len()` — the UTF-8 byte length —
(7 with a leading `#`, else 6). -/
def hexArm (s : List Char) : Except ColorParseError Color :=
  if s.head? = some '#' then
    if utf8Len s < 7 then .error .shortString
    else if utf8Len s = 7 then .ok (.rgbStr s)
    else .error .longString
  else
    if utf8Len s < 6 then .error .shortString
    else if utf8Len s = 6 then .ok (.rgbStr s)
    else .error .longString

/-- Whether the string is one of the eight named-color keywords. -/
def colorKeyword (s : List Char) : Bool :=
  s = "red".data || s = "orange".data || s = "yellow".data || s = "green".data ||
  s = "blue".data || s = "purple".data || s = "pink".data || s = "white".data

/-- Whether the string starts with one of the five recognized `label:`
prefixes of the color grammar. -/
def colorHasTag (s : List Char) : Bool :=
  "hue:".data.isPrefixOf s || "saturation:".data.isPrefixOf s ||
  "brightness:".data.isPrefixOf s || "kelvin:".data.isPrefixOf s ||
  "rgb:".data.isPrefixOf s

/-- A string the parser treats as a literal hex specifier: neither a keyword
nor tagged with a recognized prefix. -/
def unrecognizedColor (s : List Char) : Bool :=
  !(colorKeyword s) && !(colorHasTag s)

/-- The `FromStr` impl for `Color`, with the source's arm order: the eight
keywords, then the five prefix arms, then the hex-length fallback. -/
def Color.fromStr (s : List Char) : Except ColorParseError Color :=
  if s = "red".data then .ok .red
  else if s = "orange".data then .ok .orange
  else if s = "yellow".data then .ok .yellow
  else if s = "green".data then .ok .green
  else if s = "blue".data then .ok .blue
  else if s = "purple".data then .ok .purple
  else if s = "pink".data then .ok .pink
  else if s = "white".data then .ok .white
  else if "hue:".data.isPrefixOf s then hueArm s
  else if "saturation:".data.isPrefixOf s then saturationArm s
  else if "brightness:".data.isPrefixOf s then brightnessArm s
  else if "kelvin:".data.isPrefixOf s then kelvinArm s
  else if "rgb:".data.isPrefixOf s then rgbArm s
  else hexArm s

/-- The `http::state::Error` enum, re-exported as `ColorValidationError`. -/
inductive ColorValidationError
  | hue (h : Nat)
  | saturationHigh (s : F32m)
  | saturationLow (s : F32m)
  | brightnessHigh (b : F32m)
  | brightnessLow (b : F32m)
  | kelvinHigh (k : Nat)
  | kelvinLow (k : Nat)
  | rgbStrShort (hash : Bool) (s : List Char)
  | rgbStrLong (hash : Bool) (s : List Char)
  deriving DecidableEq

/-- `Color::validate`. -/
def Color.validate : Color → Except ColorValidationError Unit
  | .red | .orange | .yellow | .green | .blue | .purple | .pink | .white => .ok ()
  | .rgb _ _ _ => .ok ()
  | .custom _ => .ok ()
  | .hue h => if 360 < h then .error (.hue h) else .ok ()
  | .saturation s =>
    if s.gtQ 1 then .error (.saturationHigh s)
    else if s.ltQ 0 then .error (.saturationLow s)
    else .ok ()
  | .brightness b =>
    if b.gtQ 1 then .error (.brightnessHigh b)
    else if b.ltQ 0 then .error (.brightnessLow b)
    else .ok ()
  | .kelvin t =>
    if t < 1500 then .error (.kelvinLow t)
    else if 9000 < t then .error (.kelvinHigh t)
    else .ok ()
  | .rgbStr s =>
    if s.head? = some '#' then
      if 7 < utf8Len s then .error (.rgbStrLong true s)
      else if utf8Len s < 7 then .error (.rgbStrShort true s)
      else .ok ()
    else
      if 6 < utf8Len s then .error (.rgbStrLong false s)
      else if utf8Len s < 6 then .error (.rgbStrShort false s)
      else .ok ()

/-- Hex digit in the sense of the spec's "hex chars": `0-9`, `a-f`, `A-F`.
Used only to state what the validator does `not` check. -/
def isHexChar (c : Char) : Bool :=
  c.isDigit || ('a' ≤ c && c ≤ 'f') || ('A' ≤ c && c ≤ 'F')

/-! ## The execution engine (src/http/client/mod.rs)

`Request::send` is modelled against a scripted world: a list of `Attempt`
records, one per HTTP call the engine makes, each carrying the network
outcome and the clock readings taken while handling it.  Status codes are
`Nat`; opaque `reqwest::Error` causes are dropped from the error payloads.
Clock quantities are whole seconds (the unit the code computes in);
`Instant` subtraction and `u64` subtraction are modelled as partial —
`none` stands for the Rust panic on underflow. -/

/-- The `Error` enum of the client. -/
inductive Error
  | rateLimited (deadline : Option Nat)
  | badRequest
  | badAccessToken
  | badOAuthScope
  | notFound (url : Option (List Char))
  | server (status : Option Nat)
  | http
  | serialization
  | redirect
  | client (status : Option Nat)
  | other
  deriving DecidableEq

/-- `Error::is_client_error`. -/
def Error.isClientError : Error → Bool
  | .rateLimited _ | .badRequest | .badAccessToken | .badOAuthScope
  | .notFound _ | .client _ => true
  | _ => false

/-- One network outcome: a transport-level failure (reqwest's `send` returns
`Err` before any response), or a response with a status code and the
optional `x-ratelimit-reset` header value. -/
inductive Resp
  | transport
  | response (status : Nat) (reset : Option (List Char))
  deriving DecidableEq

/-- One scripted attempt: the outcome plus the clock readings made while
handling it.  `unix` models `SystemTime::now()` (seconds since the epoch)
and `mono` the paired `Instant::now()` taken for the reset computation;
`sleepMono` models the `Instant::now()` read by the retry loop's sleep just
before this attempt is issued (unused when no sleep precedes it). -/
structure Attempt where
  resp : Resp
  unix : Nat := 0
  mono : Nat := 0
  sleepMono : Nat := 0
  deriving DecidableEq

/-- Models the `x-ratelimit-reset` handling in `Request::send`: absent
header gives no deadline; a parseable header value `future` gives
`now_monotonic + (future - now_unix)`, where the `u64` subtraction panics
(outer `none`) when `future < now_unix`; an unparseable header falls back to
`now_monotonic + 60` seconds.  (`to_str` and `duration_since(UNIX_EPOCH)`
are modelled as always succeeding; the fallback's second `Instant::now()`
call is modelled by the same `mono` reading.) -/
def computeReset (hdr : Option (List Char)) (unix mono : Nat) : Option (Option Nat) :=
  match hdr with
  | none => some none
  | some s =>
    match parseUInt (2 ^ 64) s with
    | .ok future =>
      if future < unix then none
      else some (some (mono + (future - unix)))
    | .error _ => some (some (mono + 60))

/-- The absolute URL `send` builds from the API origin and the path. -/
def apiUrl (path : List Char) : List Char :=
  "https://api.lifx.com/v1".data ++ path

/-- Models `error_for_status` combined with the 429 special case and the
`From<reqwest::Error> for Error` mapping: 2xx/3xx pass through, 429 becomes
`RateLimited(reset)`, 400/422 `BadRequest`, 401 `BadAccessToken`, 403
`BadOAuthScope`, 404 `NotFound(url)`, other 4xx `Client`, 5xx `Server`. -/
def classifyStatus (st : Nat) (reset : Option Nat) (url : List Char) :
    Except Error Unit :=
  if st < 400 then .ok ()
  else if st = 429 then .error (.rateLimited reset)
  else if st < 500 then
    if st = 400 ∨ st = 422 then .error .badRequest
    else if st = 401 then .error .badAccessToken
    else if st = 403 then .error .badOAuthScope
    else if st = 404 then .error (.notFound (some url))
    else .error (.client (some st))
  else .error (.server (some st))

/-- The observable outcome of a `send` run over a scripted world:
a returned response or error together with the unconsumed attempts, a Rust
panic, or `exhausted` — the script ran out while the engine still wanted to
issue another HTTP call. -/
inductive SendResult
  | ok (rest : List Attempt)
  | err (e : Error) (rest : List Attempt)
  | panicked
  | exhausted
  deriving DecidableEq

/-- Models the retry `for` loop of `Request::send` (`for _ in 1..attempts`,
`iters` iterations left), parameterized by the recursive re-invocation of
`send`: a success returns; `RateLimited(Some(t))` sleeps until `t`
(panicking when `t` already passed at the sleep's `Instant::now()` reading,
taken from the next attempt's `sleepMono`); any other client error returns;
otherwise `send` is re-invoked and its outcome becomes the loop's current
result. -/
def loopWith (send : List Attempt → SendResult) :
    Nat → Except Error Unit → List Attempt → SendResult
  | 0, result, rest =>
    match result with
    | .ok _ => .ok rest
    | .error e => .err e rest
  | iters + 1, result, rest =>
    match result with
    | .ok _ => .ok rest
    | .error e =>
      match e with
      | .rateLimited (some t) =>
        match rest with
        | [] => .exhausted
        | b :: _ =>
          if t < b.sleepMono then .panicked
          else
            match send rest with
            | .ok rest₂ => loopWith send iters (.ok ()) rest₂
            | .err e₂ rest₂ => loopWith send iters (.error e₂) rest₂
            | .panicked => .panicked
            | .exhausted => .exhausted
      | _ =>
        if e.isClientError then .err e rest
        else
          match send rest with
          | .ok rest₂ => loopWith send iters (.ok ()) rest₂
          | .err e₂ rest₂ => loopWith send iters (.error e₂) rest₂
          | .panicked => .panicked
          | .exhausted => .exhausted

/-- The body of one `Request::send` invocation, parameterized by the
recursive re-invocation used in the retry loop: issue the HTTP call
(consuming the next scripted attempt; a transport failure returns
`Err(Http)` at once through `?`), compute the rate-limit reset, classify the
status, then run the retry loop for `attempts - 1` iterations. -/
def sendBody (path : List Char) (att : Nat) (send : List Attempt → SendResult) :
    List Attempt → SendResult
  | [] => .exhausted
  | a :: rest =>
    match a.resp with
    | .transport => .err .http rest
    | .response st hdr =>
      match computeReset hdr a.unix a.mono with
      | none => .panicked
      | some reset =>
        loopWith send (att - 1) (classifyStatus st reset (apiUrl path)) rest

/-- `Request::send` with an explicit recursion-depth fuel, by structural
recursion: fuel `0` reports exhaustion, fuel `fuel + 1` runs one `send` body
whose retry loop re-invokes `send` at fuel `fuel`. -/
def sendFuel (path : List Char) (att : Nat) (fuel : Nat) :
    List Attempt → SendResult :=
  Nat.rec (motive := fun _ => List Attempt → SendResult)
    (fun _ => .exhausted)
    (fun _ prev => sendBody path att prev)
    fuel

/-- `Request::send` over a scripted world.  Every nested `send` invocation
consumes at least one scripted attempt before recursing, so a fuel of
`world.length + 1` never runs out before the script does. -/
def sendModel (path : List Char) (att : Nat) (world : List Attempt) : SendResult :=
  sendFuel path att (world.length + 1) world

/-- Per-attempt precondition of C10: whenever the attempt carries a
parseable `x-ratelimit-reset` header, the advertised reset time is not in
the wall-clock past, so the `u64` subtraction cannot underflow. -/
def resetOk (a : Attempt) : Bool :=
  match a.resp with
  | .transport => true
  | .response _ hdr =>
    match hdr with
    | none => true
    | some s =>
      match parseUInt (2 ^ 64) s with
      | .ok f => a.unix ≤ f
      | .error _ => true

/-- The rate-limit deadline an attempt's classification produces, when it
produces one (a 429 with a present header). -/
def attemptLimit (a : Attempt) : Option Nat :=
  match a.resp with
  | .transport => none
  | .response st hdr =>
    if st = 429 then
      match hdr with
      | none => none
      | some s =>
        match parseUInt (2 ^ 64) s with
        | .ok f => if a.unix ≤ f then some (a.mono + (f - a.unix)) else none
        | .error _ => some (a.mono + 60)
    else none

/-- Pairwise precondition of C10: if an attempt yields a rate-limit
deadline, the monotonic reading at the following sleep has not passed it, so
the `Instant` subtraction feeding `thread::sleep` cannot underflow. -/
def sleepOk (a b : Attempt) : Prop :=
  ∀ t, attemptLimit a = some t → b.sleepMono ≤ t

/-- The C10 precondition on a scripted world: reset timestamps never lie in
the past at the two moments the subtractions are evaluated. -/
def panicFree (l : List Attempt) : Prop :=
  (∀ a ∈ l, resetOk a = true) ∧ l.Chain' sleepOk

/-- The condition under which an error value carries no stale rate-limit
deadline relative to the upcoming attempt: if it is `RateLimited(Some t)`,
the sleep reading of the next scripted attempt has not passed `t`. -/
def goodErr (e : Error) (rest : List Attempt) : Prop :=
  ∀ t, e = .rateLimited (some t) → ∀ b, rest.head? = some b → b.sleepMono ≤ t

/-- `goodErr` lifted to the loop's current result. -/
def goodRes : Except Error Unit → List Attempt → Prop
  | .ok _, _ => True
  | .error e, rest => goodErr e rest

/-- Invariant carried through the engine: the run does not panic, and
whatever it returns leaves a panic-free remainder with no stale deadline. -/
def Inv : SendResult → Prop
  | .ok rest => panicFree rest
  | .err e rest => panicFree rest ∧ goodErr e rest
  | .panicked => False
  | .exhausted => True

/-- A server that answers HTTP 500 with no rate-limit header. -/
def attempt500 : Attempt := { resp := .response 500 none }

/-- A server that answers HTTP 401. -/
def attempt401 : Attempt := { resp := .response 401 none }

/-- A successful HTTP 200 response. -/
def attemptOk : Attempt := { resp := .response 200 none }

/-- An HTTP 429 response without an `x-ratelimit-reset` header. -/
def attempt429NoHeader : Attempt := { resp := .response 429 none }

/-- A transport-level failure (DNS/TLS/connection). -/
def attemptTransport : Attempt := { resp := .transport }

/-! ## General lemmas -/

theorem sendFuel_succ (path : List Char) (att fuel : Nat) (l : List Attempt) :
    sendFuel path att (fuel + 1) l = sendBody path att (sendFuel path att fuel) l := rfl

theorem classifyStatus_429 (r : Option Nat) (url : List Char) :
    classifyStatus 429 r url = .error (.rateLimited r) := rfl

/-- A success always stops the loop at once. -/
theorem loopWith_ok (send : List Attempt → SendResult) (iters : Nat)
    (rest : List Attempt) : loopWith send iters (.ok ()) rest = .ok rest := by
  cases iters <;> rfl

/-- Any client error other than `RateLimited(Some _)` stops the loop at once
and is returned. -/
theorem loopWith_client (send : List Attempt → SendResult) (iters : Nat)
    (e : Error) (rest : List Attempt) (he : e.isClientError = true)
    (hne : ∀ t, e ≠ .rateLimited (some t)) :
    loopWith send iters (.error e) rest = .err e rest := by
  cases iters with
  | zero => rfl
  | succ n =>
    cases e with
    | rateLimited d =>
      cases d with
      | none => rfl
      | some t => exact absurd rfl (hne t)
    | badRequest => rfl
    | badAccessToken => rfl
    | badOAuthScope => rfl
    | notFound u => rfl
    | client st => rfl
    | server st => exact absurd he (by simp [Error.isClientError])
    | http => exact absurd he (by simp [Error.isClientError])
    | serialization => exact absurd he (by simp [Error.isClientError])
    | redirect => exact absurd he (by simp [Error.isClientError])
    | other => exact absurd he (by simp [Error.isClientError])

/-- A 4xx status other than 429 classifies to a non-retryable client error. -/
theorem classifyStatus_client (st : Nat) (r : Option Nat) (url : List Char)
    (h1 : 400 ≤ st) (h2 : st < 500) (h3 : st ≠ 429) :
    ∃ e, classifyStatus st r url = .error e ∧ e.isClientError = true
      ∧ ∀ t, e ≠ .rateLimited (some t) := by
  simp only [classifyStatus, if_neg (by omega : ¬ st < 400), if_neg h3, if_pos h2]
  by_cases h4 : st = 400 ∨ st = 422
  · rw [if_pos h4]
    exact ⟨.badRequest, rfl, rfl, fun t h => Error.noConfusion h⟩
  · rw [if_neg h4]
    by_cases h5 : st = 401
    · rw [if_pos h5]
      exact ⟨.badAccessToken, rfl, rfl, fun t h => Error.noConfusion h⟩
    · rw [if_neg h5]
      by_cases h6 : st = 403
      · rw [if_pos h6]
        exact ⟨.badOAuthScope, rfl, rfl, fun t h => Error.noConfusion h⟩
      · rw [if_neg h6]
        by_cases h7 : st = 404
        · rw [if_pos h7]
          exact ⟨.notFound (some url), rfl, rfl, fun t h => Error.noConfusion h⟩
        · rw [if_neg h7]
          exact ⟨.client (some st), rfl, rfl, fun t h => Error.noConfusion h⟩

theorem splitAll_ne_nil (c : Char) (s : List Char) : splitAll c s ≠ [] := by
  induction s with
  | nil => simp [splitAll]
  | cons x xs ih =>
    simp only [splitAll]
    split
    · simp
    · split
      · simp
      · simp

/-- Splitting a list that does not contain the separator yields that list alone. -/
theorem splitAll_of_not_mem (c : Char) (s : List Char) (h : c ∉ s) :
    splitAll c s = [s] := by
  induction s with
  | nil => rfl
  | cons x xs ih =>
    simp only [List.mem_cons, not_or] at h
    have hx : ¬ (x = c) := fun hxc => h.1 (Eq.symm hxc)
    simp only [splitAll, if_neg hx, ih h.2]

/-- Splitting `pre ++ c :: rest` where `pre` is separator-free peels off `pre`. -/
theorem splitAll_append_sep (c : Char) (pre rest : List Char) (h : c ∉ pre) :
    splitAll c (pre ++ c :: rest) = pre :: splitAll c rest := by
  induction pre with
  | nil => simp [splitAll]
  | cons x xs ih =>
    simp only [List.mem_cons, not_or] at h
    have hx : ¬ (x = c) := fun hxc => h.1 (Eq.symm hxc)
    simp only [List.cons_append, splitAll, if_neg hx, List.append_eq, ih h.2]

theorem cleanPayload_spec (p : List Char) (h : cleanPayload p = true) :
    ':' ∉ p ∧ rustTrim p = p := by
  simpa [cleanPayload] using h

theorem cons_ne_all (x : Char) (rest : List Char) (hx : x ≠ 'a') :
    x :: rest ≠ "all".data := by
  intro h
  rw [show ("all".data : List Char) = 'a' :: "ll".data from rfl] at h
  injection h with h1 _
  exact hx h1

/-- Parsing `lab ++ ':' :: p` for a recognized colon-free label and a clean
payload takes the label branch with the untouched payload as value. -/
theorem fromStr_label_value (lab p : List Char) (hlab : ':' ∉ lab) (hp : ':' ∉ p)
    (hne : lab ++ ':' :: p ≠ "all".data) :
    Selector.fromStr (lab ++ ':' :: p) =
      (if lab = "label".data then .ok (.label (rustTrim p))
      else if lab = "id".data then .ok (.id (rustTrim p))
      else if lab = "group_id".data then .ok (.groupId (rustTrim p))
      else if lab = "group".data then .ok (.group (rustTrim p))
      else if lab = "location_id".data then .ok (.locationId (rustTrim p))
      else if lab = "location".data then .ok (.location (rustTrim p))
      else if lab = "scene_id".data then .ok (.sceneId (rustTrim p))
      else .error .unknownLabel) := by
  rw [Selector.fromStr, if_neg hne, splitAll_append_sep ':' lab p hlab,
    splitAll_of_not_mem ':' p hp]

/-! ## C1: selector round trip -/

/-- C1 counterexample: the round-trip law fails for a payload containing a
colon — `Label("a:b")` renders to `label:a:b` but parses back to
`Label("a")` (the parser keeps only the text between the first two colons,
and trims it). -/
theorem c1_round_trip_counterexample :
    Selector.fromStr (Selector.render (.label "a:b".data)) = .ok (.label "a".data)
    ∧ Selector.label "a".data ≠ Selector.label "a:b".data :=
  ⟨rfl, by decide⟩

/-- C1 amended: parsing the rendered string returns the original selector
for every non-decorated selector whose payload contains no colon and is
trim-stable (no leading/trailing whitespace). -/
theorem c1_round_trip_amended (s : Selector) (h : s.clean = true) :
    Selector.fromStr s.render = .ok s := by
  cases s with
  | all => rfl
  | label p =>
    obtain ⟨hp, ht⟩ := cleanPayload_spec p h
    show Selector.fromStr ("label".data ++ ':' :: p) = .ok (.label p)
    rw [fromStr_label_value _ p (by decide) hp (cons_ne_all 'l' _ (by decide))]
    simp [ht]
  | id p =>
    obtain ⟨hp, ht⟩ := cleanPayload_spec p h
    show Selector.fromStr ("id".data ++ ':' :: p) = .ok (.id p)
    rw [fromStr_label_value _ p (by decide) hp (cons_ne_all 'i' _ (by decide))]
    simp [ht]
  | groupId p =>
    obtain ⟨hp, ht⟩ := cleanPayload_spec p h
    show Selector.fromStr ("group_id".data ++ ':' :: p) = .ok (.groupId p)
    rw [fromStr_label_value _ p (by decide) hp (cons_ne_all 'g' _ (by decide))]
    simp [ht]
  | group p =>
    obtain ⟨hp, ht⟩ := cleanPayload_spec p h
    show Selector.fromStr ("group".data ++ ':' :: p) = .ok (.group p)
    rw [fromStr_label_value _ p (by decide) hp (cons_ne_all 'g' _ (by decide))]
    simp [ht]
  | locationId p =>
    obtain ⟨hp, ht⟩ := cleanPayload_spec p h
    show Selector.fromStr ("location_id".data ++ ':' :: p) = .ok (.locationId p)
    rw [fromStr_label_value _ p (by decide) hp (cons_ne_all 'l' _ (by decide))]
    simp [ht]
  | location p =>
    obtain ⟨hp, ht⟩ := cleanPayload_spec p h
    show Selector.fromStr ("location".data ++ ':' :: p) = .ok (.location p)
    rw [fromStr_label_value _ p (by decide) hp (cons_ne_all 'l' _ (by decide))]
    simp [ht]
  | sceneId p =>
    obtain ⟨hp, ht⟩ := cleanPayload_spec p h
    show Selector.fromStr ("scene_id".data ++ ':' :: p) = .ok (.sceneId p)
    rw [fromStr_label_value _ p (by decide) hp (cons_ne_all 's' _ (by decide))]
    simp [ht]

/-- C1 witness: the amended round trip at the concrete selector
`Group("Lounge")`. -/
theorem c1_round_trip_witness :
    (Selector.group "Lounge".data).clean = true
    ∧ Selector.fromStr (Selector.render (.group "Lounge".data)) = .ok (.group "Lounge".data) :=
  ⟨by decide, c1_round_trip_amended (.group "Lounge".data) (by decide)⟩

/-! ## C6: selector parse errors -/

/-- C6: the code disagrees with the documented error conditions.  A
colon-free input that is not `all` yields `NoValue` (the claim and the error
enum's own doc comments say `NoLabel`); `label:` — a colon with nothing
after it — parses successfully as `Label("")` (the claim says `NoValue`);
and `NoLabel` is never returned at all, because Rust's `split` iterator
always yields a first item.  The `UnknownLabel` half of the claim does hold:
any input with a colon whose leading segment is not a recognized label
yields `UnknownLabel`. -/
theorem c6_selector_parse_errors :
    Selector.fromStr "foo".data = .error .noValue
    ∧ Selector.fromStr "label:".data = .ok (.label [])
    ∧ (∀ s, Selector.fromStr s ≠ .error .noLabel) := by
  refine ⟨rfl, rfl, ?_⟩
  intro s h
  rw [Selector.fromStr] at h
  by_cases hall : s = "all".data
  · rw [if_pos hall] at h
    exact Except.noConfusion h
  · rw [if_neg hall] at h
    rcases hsp : splitAll ':' s with _ | ⟨a, _ | ⟨b, u⟩⟩
    · exact splitAll_ne_nil ':' s hsp
    · rw [hsp] at h
      simp at h
    · rw [hsp] at h
      dsimp only at h
      split_ifs at h <;> simp_all

/-! ## C9: zoning and randomization composition -/

/-- C9: rendering a zoned selector appends `|z` per zone in order; the range
`3..=5` expands to the ascending sequence `3, 4, 5`, so zoning any base
selector by it appends `|3|4|5`; randomization appends `:random` to the
inner rendering; and `Group("Living Room")` zoned by `0..2` then randomized
renders exactly `group:Living Room|0|1:random`. -/
theorem c9_zoning_composition :
    (∀ (s : Selector) (z : Zones),
      (s.zoned z).render = s.render ++ (z.list.map (fun n => '|' :: renderNat n)).flatten)
    ∧ (∀ s : Selector, (s.zoned (Zones.ofRangeInclusive 3 5)).render = s.render ++ "|3|4|5".data)
    ∧ (∀ p : PureSel, (Random.mk p).render = p.render ++ ":random".data)
    ∧ (Random.mk (.zon ((Selector.group "Living Room".data).zoned (Zones.ofRange 0 2)))).render
        = "group:Living Room|0|1:random".data := by
  refine ⟨fun s z => rfl, fun s => ?_, fun p => rfl, rfl⟩
  show s.render ++ ((Zones.ofRangeInclusive 3 5).list.map (fun n => '|' :: renderNat n)).flatten
      = s.render ++ "|3|4|5".data
  rfl

/-! ## C7: color parse errors -/

/-- When the input is neither a keyword nor carries a recognized prefix, the
parser falls through to the hex-length arm. -/
theorem fromStr_unrecognized (s : List Char) (h : unrecognizedColor s = true) :
    Color.fromStr s = hexArm s := by
  simp only [unrecognizedColor, colorKeyword, colorHasTag, Bool.and_eq_true,
    Bool.not_eq_true', Bool.or_eq_false_iff, decide_eq_false_iff_not] at h
  obtain ⟨⟨⟨⟨⟨⟨⟨⟨h1, h2⟩, h3⟩, h4⟩, h5⟩, h6⟩, h7⟩, h8⟩, hp⟩ := h
  obtain ⟨⟨⟨⟨p1, p2⟩, p3⟩, p4⟩, p5⟩ := hp
  rw [Color.fromStr, if_neg h1, if_neg h2, if_neg h3, if_neg h4, if_neg h5,
    if_neg h6, if_neg h7, if_neg h8, if_neg (by simp [p1]), if_neg (by simp [p2]),
    if_neg (by simp [p3]), if_neg (by simp [p4]), if_neg (by simp [p5])]

/-- C7: the parser's error variants are prefix- and component-specific.
Each recognized prefix with an empty remainder yields its missing-value
variant, a remainder failing its numeric parse yields the prefix's
non-numeric variant wrapping the parse error's kind, the rgb remainder is
decomposed into red, green and blue components with per-component variants,
and unrecognized strings shorter/longer than a hex specifier — measured, as
the code's `s.len()` does, in UTF-8 bytes: 6 bytes, or 7 with a leading
`#` — yield `ShortString`/`LongString`. -/
theorem c7_color_parse_specificity :
    Color.fromStr "hue:".data = .error .noHue
    ∧ Color.fromStr "saturation:".data = .error .noSaturation
    ∧ Color.fromStr "brightness:".data = .error .noBrightness
    ∧ Color.fromStr "kelvin:".data = .error .noKelvin
    ∧ Color.fromStr "rgb:".data = .error .noRed
    ∧ Color.fromStr "hue:x".data = .error (.nonNumericHue .invalidDigit)
    ∧ Color.fromStr "saturation:x".data = .error (.nonNumericSaturation .invalid)
    ∧ Color.fromStr "brightness:x".data = .error (.nonNumericBrightness .invalid)
    ∧ Color.fromStr "kelvin:x".data = .error (.nonNumericKelvin .invalidDigit)
    ∧ Color.fromStr "rgb:x,1,2".data = .error (.nonNumericRed .invalidDigit)
    ∧ Color.fromStr "rgb:0,x,2".data = .error (.nonNumericGreen .invalidDigit)
    ∧ Color.fromStr "rgb:0,1,x".data = .error (.nonNumericBlue .invalidDigit)
    ∧ Color.fromStr "rgb:0,".data = .error .noGreen
    ∧ Color.fromStr "rgb:0,1,".data = .error .noBlue
    ∧ (∀ s, unrecognizedColor s = true →
        (s.head? = some '#' →
          (utf8Len s < 7 → Color.fromStr s = .error .shortString)
          ∧ (7 < utf8Len s → Color.fromStr s = .error .longString))
        ∧ (s.head? ≠ some '#' →
          (utf8Len s < 6 → Color.fromStr s = .error .shortString)
          ∧ (6 < utf8Len s → Color.fromStr s = .error .longString))) := by
  refine ⟨rfl, rfl, rfl, rfl, rfl, rfl, rfl, rfl, rfl, rfl, rfl, rfl, rfl, rfl, ?_⟩
  intro s hs
  rw [fromStr_unrecognized s hs, hexArm]
  constructor
  · intro hh
    rw [if_pos hh]
    refine ⟨fun hlen => by rw [if_pos hlen], fun hlen => ?_⟩
    rw [if_neg (by omega), if_neg (by omega)]
  · intro hh
    rw [if_neg hh]
    refine ⟨fun hlen => by rw [if_pos hlen], fun hlen => ?_⟩
    rw [if_neg (by omega), if_neg (by omega)]

/-- C7 witness: the length fallback at concrete unrecognized strings. -/
theorem c7_color_parse_witness :
    Color.fromStr "foo".data = .error .shortString
    ∧ Color.fromStr "#1234567".data = .error .longString := by
  have hgen :=
    c7_color_parse_specificity.2.2.2.2.2.2.2.2.2.2.2.2.2.2
  exact ⟨((hgen "foo".data (by decide)).2 (by decide)).1 (by decide),
    ((hgen "#1234567".data (by decide)).1 (by decide)).2 (by decide)⟩

/-! ## C8: color validation -/

/-- C8 counterexample: the validator checks only the byte length of an RGB
string, never that its characters are hex digits — `RgbStr("zzzzzz")`
validates Ok although `zzzzzz` contains no hex digit at all, while the claim
says Ok is returned exactly for strings of 6 hex characters; and
`Saturation(NaN)` validates Ok although NaN does not lie within 0.0 to 1.0
(both f32 comparisons of the source are false on NaN). -/
theorem c8_validate_counterexample :
    Color.validate (.rgbStr "zzzzzz".data) = .ok ()
    ∧ "zzzzzz".data.all isHexChar = false
    ∧ Color.validate (.saturation .nan) = .ok () :=
  ⟨rfl, rfl, rfl⟩

/-- C8 amended: `validate` accepts hue at most 360 and kelvin within
`[1500, 9000]`; for the f32 fields it accepts exactly the values that are
neither greater than 1.0 nor less than 0.0 under f32 partial comparison —
finite values within `[0, 1]`, but also NaN, which validates Ok although it
lies in no range, while `+inf` fails high and `-inf` fails low; for
`RgbStr` it accepts exactly the documented byte lengths (`s.len()` of 6, or
7 with a leading `#`) with no hex-digit check; named colors, `Rgb` and
`Custom` always validate; each failure returns the listed variant, the
RGB-string ones carrying whether a `#` was present. -/
theorem c8_validate_amended :
    (∀ h : Nat, (Color.validate (.hue h) = .ok () ↔ h ≤ 360)
      ∧ (360 < h → Color.validate (.hue h) = .error (.hue h)))
    ∧ (∀ q : ℚ, (Color.validate (.saturation (.num q)) = .ok () ↔ 0 ≤ q ∧ q ≤ 1)
      ∧ (1 < q → Color.validate (.saturation (.num q)) = .error (.saturationHigh (.num q)))
      ∧ (q < 0 → Color.validate (.saturation (.num q)) = .error (.saturationLow (.num q))))
    ∧ Color.validate (.saturation .nan) = .ok ()
    ∧ Color.validate (.saturation .posInf) = .error (.saturationHigh .posInf)
    ∧ Color.validate (.saturation .negInf) = .error (.saturationLow .negInf)
    ∧ (∀ q : ℚ, (Color.validate (.brightness (.num q)) = .ok () ↔ 0 ≤ q ∧ q ≤ 1)
      ∧ (1 < q → Color.validate (.brightness (.num q)) = .error (.brightnessHigh (.num q)))
      ∧ (q < 0 → Color.validate (.brightness (.num q)) = .error (.brightnessLow (.num q))))
    ∧ Color.validate (.brightness .nan) = .ok ()
    ∧ Color.validate (.brightness .posInf) = .error (.brightnessHigh .posInf)
    ∧ Color.validate (.brightness .negInf) = .error (.brightnessLow .negInf)
    ∧ (∀ k : Nat, (Color.validate (.kelvin k) = .ok () ↔ 1500 ≤ k ∧ k ≤ 9000)
      ∧ (k < 1500 → Color.validate (.kelvin k) = .error (.kelvinLow k))
      ∧ (9000 < k → Color.validate (.kelvin k) = .error (.kelvinHigh k)))
    ∧ (∀ s : List Char,
      (s.head? = some '#' →
        (Color.validate (.rgbStr s) = .ok () ↔ utf8Len s = 7)
        ∧ (utf8Len s < 7 → Color.validate (.rgbStr s) = .error (.rgbStrShort true s))
        ∧ (7 < utf8Len s → Color.validate (.rgbStr s) = .error (.rgbStrLong true s)))
      ∧ (s.head? ≠ some '#' →
        (Color.validate (.rgbStr s) = .ok () ↔ utf8Len s = 6)
        ∧ (utf8Len s < 6 → Color.validate (.rgbStr s) = .error (.rgbStrShort false s))
        ∧ (6 < utf8Len s → Color.validate (.rgbStr s) = .error (.rgbStrLong false s))))
    ∧ (∀ r g b : Nat, Color.validate (.rgb r g b) = .ok ())
    ∧ (∀ s, Color.validate (.custom s) = .ok ())
    ∧ Color.validate .red = .ok () ∧ Color.validate .orange = .ok ()
    ∧ Color.validate .yellow = .ok () ∧ Color.validate .green = .ok ()
    ∧ Color.validate .blue = .ok () ∧ Color.validate .purple = .ok ()
    ∧ Color.validate .pink = .ok () ∧ Color.validate .white = .ok () := by
  refine ⟨?_, ?_, rfl, rfl, rfl, ?_, rfl, rfl, rfl, ?_, ?_, fun r g b => rfl, fun s => rfl,
    rfl, rfl, rfl, rfl, rfl, rfl, rfl, rfl⟩
  · intro h
    constructor
    · simp only [Color.validate]
      split_ifs with h1 <;> simp <;> omega
    · intro h1
      simp only [Color.validate, if_pos h1]
  · intro q
    refine ⟨?_, fun h1 => ?_, fun h1 => ?_⟩
    · simp only [Color.validate, F32m.gtQ, F32m.ltQ]
      split_ifs with h1 h2 <;> simp_all <;> constructor <;> linarith
    · simp only [Color.validate, F32m.gtQ, if_pos (decide_eq_true h1)]
    · have hng : ¬ (decide (1 < q) = true) := by
        simp only [decide_eq_true_eq]
        linarith
      simp only [Color.validate, F32m.gtQ, F32m.ltQ, if_neg hng,
        if_pos (decide_eq_true h1)]
  · intro q
    refine ⟨?_, fun h1 => ?_, fun h1 => ?_⟩
    · simp only [Color.validate, F32m.gtQ, F32m.ltQ]
      split_ifs with h1 h2 <;> simp_all <;> constructor <;> linarith
    · simp only [Color.validate, F32m.gtQ, if_pos (decide_eq_true h1)]
    · have hng : ¬ (decide (1 < q) = true) := by
        simp only [decide_eq_true_eq]
        linarith
      simp only [Color.validate, F32m.gtQ, F32m.ltQ, if_neg hng,
        if_pos (decide_eq_true h1)]
  · intro k
    refine ⟨?_, fun h1 => ?_, fun h1 => ?_⟩
    · simp only [Color.validate]
      split_ifs with h1 h2 <;> simp <;> omega
    · simp only [Color.validate, if_pos h1]
    · simp only [Color.validate, if_neg (by omega : ¬ k < 1500), if_pos h1]
  · intro s
    constructor
    · intro hh
      simp only [Color.validate, if_pos hh]
      refine ⟨?_, fun h1 => by rw [if_neg (by omega), if_pos h1], fun h1 => by rw [if_pos h1]⟩
      split_ifs with h1 h2 <;> simp <;> omega
    · intro hh
      simp only [Color.validate, if_neg hh]
      refine ⟨?_, fun h1 => by rw [if_neg (by omega), if_pos h1], fun h1 => by rw [if_pos h1]⟩
      split_ifs with h1 h2 <;> simp <;> omega

/-- C8 witness: the amended characterization at the documented boundary
values. -/
theorem c8_validate_witness :
    Color.validate (.hue 361) = .error (.hue 361)
    ∧ Color.validate (.saturation (.num 1)) = .ok ()
    ∧ Color.validate (.kelvin 1499) = .error (.kelvinLow 1499)
    ∧ Color.validate (.rgbStr "#123456".data) = .ok ()
    ∧ Color.validate (.rgbStr "12345".data) = .error (.rgbStrShort false "12345".data) :=
  ⟨(c8_validate_amended.1 361).2 (by norm_num),
    (c8_validate_amended.2.1 1).1.mpr (by norm_num),
    (c8_validate_amended.2.2.2.2.2.2.2.2.2.1 1499).2.1 (by norm_num),
    ((c8_validate_amended.2.2.2.2.2.2.2.2.2.2.1 "#123456".data).1 (by decide)).1.mpr
      (by decide),
    ((c8_validate_amended.2.2.2.2.2.2.2.2.2.2.1 "12345".data).2 (by decide)).2.1
      (by decide)⟩

/-! ## C4: the client-error predicate -/

/-- C4: `is_client_error` returns true exactly for `RateLimited`,
`BadRequest`, `BadAccessToken`, `BadOAuthScope`, `NotFound` and `Client`,
and false for `Server`, `Http`, `Serialization`, `Redirect` and `Other`. -/
theorem c4_is_client_error (e : Error) :
    e.isClientError = true ↔
      ((∃ d, e = .rateLimited d) ∨ e = .badRequest ∨ e = .badAccessToken
        ∨ e = .badOAuthScope ∨ (∃ u, e = .notFound u) ∨ (∃ st, e = .client st)) := by
  cases e <;> simp [Error.isClientError]

/-! ## C2: retry termination -/

/-- With a budget of 2 and a server that always answers 500, every recursive
re-invocation of `send` restarts a full budget, so the engine consumes every
scripted response, however many there are: the attempt count is unbounded
and no result is ever returned. -/
theorem sendFuel_always500 :
    ∀ fuel k, sendFuel [] 2 fuel (List.replicate k attempt500) = .exhausted := by
  intro fuel
  induction fuel with
  | zero => intro k; rfl
  | succ n ih =>
    intro k
    cases k with
    | zero => rfl
    | succ m =>
      show (match sendFuel [] 2 n (List.replicate m attempt500) with
        | .ok r => loopWith (sendFuel [] 2 n) 0 (.ok ()) r
        | .err e r => loopWith (sendFuel [] 2 n) 0 (.error e) r
        | .panicked => SendResult.panicked
        | .exhausted => SendResult.exhausted) = .exhausted
      rw [ih m]

/-- C2: the claimed retry budget is violated by the 500 half and respected
by the 401 half.  With budget 2, a server that always answers 500 makes the
engine consume every scripted response and still demand more (the retry
re-invokes `send` recursively with a fresh budget, so the attempt count is
unbounded instead of exactly 2, and the last `Server` error is never
returned); a 401 on the first attempt stops after exactly one HTTP call for
every budget, returning `BadAccessToken` with the whole remaining script
unconsumed. -/
theorem c2_retry_termination :
    (∀ k, sendModel [] 2 (List.replicate k attempt500) = .exhausted)
    ∧ (∀ att rest, sendModel [] att (attempt401 :: rest) = .err .badAccessToken rest) := by
  constructor
  · intro k
    exact sendFuel_always500 _ k
  · intro att rest
    show loopWith (sendFuel [] att (rest.length + 1)) (att - 1)
        (.error .badAccessToken) rest = .err .badAccessToken rest
    exact loopWith_client _ _ _ _ rfl (fun t h => Error.noConfusion h)

/-! ## C3: the retry policy -/

/-- C3 counterexample: with budget 2 and a success scripted right after, a
429 without a reset header is returned immediately (`RateLimited(None)` is
classified as a client error; there is no 60-second wait and no retry), and
a first-attempt transport failure is likewise returned immediately through
`?` rather than retried. -/
theorem c3_retry_policy_counterexample :
    sendModel [] 2 [attempt429NoHeader, attemptOk] = .err (.rateLimited none) [attemptOk]
    ∧ sendModel [] 2 [attemptTransport, attemptOk] = .err .http [attemptOk]
    ∧ (Error.rateLimited none).isClientError = true :=
  ⟨rfl, rfl, rfl⟩

/-- C3 amended: `RateLimited(Some(t))` blocks until `t` and then retries;
`RateLimited(None)` is treated as a client error and returned immediately
(the 60-second fallback instead shows up as a deadline when the header is
present but unparseable, see C5); a 5xx is retried (by recursive
re-invocation of `send`); any other 4xx-class error stops the loop at once;
and a transport failure on the first attempt returns immediately without
entering the loop. -/
theorem c3_retry_policy_amended :
    (∀ (hdr : List Char) (future unix mono sMono : Nat) (rest : List Attempt),
      parseUInt (2 ^ 64) hdr = .ok future → unix ≤ future →
      sMono ≤ mono + (future - unix) →
      sendModel [] 2
        ({ resp := .response 429 (some hdr), unix := unix, mono := mono } ::
          { resp := .response 200 none, sleepMono := sMono } :: rest) = .ok rest)
    ∧ (∀ att rest, sendModel [] att (attempt429NoHeader :: rest)
        = .err (.rateLimited none) rest)
    ∧ (∀ rest, sendModel [] 2 (attempt500 :: attemptOk :: rest) = .ok rest)
    ∧ (∀ st rest att, 400 ≤ st → st < 500 → st ≠ 429 →
        ∃ e, classifyStatus st none (apiUrl []) = .error e ∧ e.isClientError = true
          ∧ sendModel [] att ({ resp := .response st none } :: rest) = .err e rest)
    ∧ (∀ att rest, sendModel [] att (attemptTransport :: rest) = .err .http rest) := by
  refine ⟨?_, ?_, fun rest => rfl, ?_, fun att rest => rfl⟩
  · intro hdr future unix mono sMono rest hparse hle hsleep
    show sendFuel [] 2 ((rest.length + 2) + 1)
        ({ resp := .response 429 (some hdr), unix := unix, mono := mono } ::
          { resp := .response 200 none, sleepMono := sMono } :: rest) = .ok rest
    rw [sendFuel_succ]
    simp only [sendBody, computeReset, hparse, if_neg (Nat.not_lt.mpr hle)]
    rw [classifyStatus_429]
    show (if mono + (future - unix) < sMono then SendResult.panicked
      else match sendFuel [] 2 (rest.length + 2)
          ({ resp := Resp.response 200 none, unix := 0, mono := 0, sleepMono := sMono } :: rest) with
        | .ok r2 => loopWith (sendFuel [] 2 (rest.length + 2)) 0 (.ok ()) r2
        | .err e2 r2 => loopWith (sendFuel [] 2 (rest.length + 2)) 0 (.error e2) r2
        | .panicked => SendResult.panicked
        | .exhausted => SendResult.exhausted) = .ok rest
    rw [if_neg (Nat.not_lt.mpr hsleep)]
    rw [show sendFuel [] 2 (rest.length + 2)
        ({ resp := Resp.response 200 none, unix := 0, mono := 0, sleepMono := sMono } :: rest)
      = .ok rest from rfl]
    rfl
  · intro att rest
    show loopWith (sendFuel [] att (rest.length + 1)) (att - 1)
        (.error (.rateLimited none)) rest = .err (.rateLimited none) rest
    refine loopWith_client _ _ _ _ rfl (fun t h => ?_)
    injection h with h1
    exact Option.noConfusion h1
  · intro st rest att h1 h2 h3
    obtain ⟨e, hcl, hce, hnr⟩ := classifyStatus_client st none (apiUrl []) h1 h2 h3
    refine ⟨e, hcl, hce, ?_⟩
    show loopWith (sendFuel [] att (rest.length + 1)) (att - 1)
        (classifyStatus st none (apiUrl [])) rest = .err e rest
    rw [hcl]
    exact loopWith_client _ _ _ _ hce hnr

/-- C3 witness: the amended sleep-then-retry behaviour at a concrete
parseable header 30 seconds ahead of the wall clock. -/
theorem c3_retry_policy_witness :
    sendModel [] 2
      [{ resp := .response 429 (some "70".data), unix := 40, mono := 10 },
        { resp := .response 200 none, sleepMono := 35 }] = .ok []
    ∧ (∃ e, classifyStatus 404 none (apiUrl []) = .error e ∧ e.isClientError = true
        ∧ sendModel [] 5 [{ resp := .response 404 none }] = .err e []) :=
  ⟨c3_retry_policy_amended.1 "70".data 70 40 10 35 [] rfl (by decide) (by decide),
    c3_retry_policy_amended.2.2.2.1 404 [] 5 (by decide) (by decide) (by decide)⟩

/-! ## C5: the rate-limit deadline -/

/-- C5 counterexample: a present but unparseable `x-ratelimit-reset` header
does not give `RateLimited(None)` — the fallback produces a concrete
deadline 60 seconds from the monotonic reading. -/
theorem c5_rate_limit_counterexample :
    sendModel [] 1 [{ resp := .response 429 (some "abc".data), unix := 100, mono := 5 }]
      = .err (.rateLimited (some 65)) []
    ∧ Error.rateLimited (some 65) ≠ .rateLimited none :=
  ⟨rfl, by decide⟩

/-- C5 amended: on a 429, an absent header yields `RateLimited(None)`; a
parseable header value `future` not in the past yields
`RateLimited(Some(now_monotonic + (future - now_unix)))`; a present but
unparseable header yields `RateLimited(Some(now_monotonic + 60))`. -/
theorem c5_rate_limit_amended :
    (∀ unix mono, computeReset none unix mono = some none)
    ∧ (∀ (hdr : List Char) (future unix mono : Nat),
        parseUInt (2 ^ 64) hdr = .ok future → unix ≤ future →
        computeReset (some hdr) unix mono = some (some (mono + (future - unix))))
    ∧ (∀ (hdr : List Char) (unix mono : Nat) (e : ParseIntErrorKind),
        parseUInt (2 ^ 64) hdr = .error e →
        computeReset (some hdr) unix mono = some (some (mono + 60)))
    ∧ (∀ att rest, sendModel [] att (attempt429NoHeader :: rest)
        = .err (.rateLimited none) rest)
    ∧ (∀ (hdr : List Char) (future unix mono : Nat) (rest : List Attempt),
        parseUInt (2 ^ 64) hdr = .ok future → unix ≤ future →
        sendModel [] 1 ({ resp := .response 429 (some hdr), unix := unix, mono := mono } :: rest)
          = .err (.rateLimited (some (mono + (future - unix)))) rest) := by
  refine ⟨fun unix mono => rfl, ?_, ?_, ?_, ?_⟩
  · intro hdr future unix mono hparse hle
    simp only [computeReset, hparse, if_neg (Nat.not_lt.mpr hle)]
  · intro hdr unix mono e hparse
    simp only [computeReset, hparse]
  · intro att rest
    show loopWith (sendFuel [] att (rest.length + 1)) (att - 1)
        (.error (.rateLimited none)) rest = .err (.rateLimited none) rest
    refine loopWith_client _ _ _ _ rfl (fun t h => ?_)
    injection h with h1
    exact Option.noConfusion h1
  · intro hdr future unix mono rest hparse hle
    show sendFuel [] 1 ((rest.length + 1) + 1)
        ({ resp := .response 429 (some hdr), unix := unix, mono := mono } :: rest)
      = .err (.rateLimited (some (mono + (future - unix)))) rest
    rw [sendFuel_succ]
    simp only [sendBody, computeReset, hparse, if_neg (Nat.not_lt.mpr hle)]
    rw [classifyStatus_429]
    rfl

/-- C5 witness: a header 30 seconds ahead of the wall clock (130 vs 100)
gives a deadline 30 seconds past the monotonic reading (7 + 30 = 37). -/
theorem c5_rate_limit_witness :
    computeReset (some "130".data) 100 7 = some (some 37)
    ∧ sendModel [] 1 [{ resp := .response 429 (some "130".data), unix := 100, mono := 7 }]
        = .err (.rateLimited (some 37)) [] :=
  ⟨c5_rate_limit_amended.2.1 "130".data 130 100 7 rfl (by decide),
    c5_rate_limit_amended.2.2.2.2 "130".data 130 100 7 [] rfl (by decide)⟩

/-! ## C10: panic sites in send -/

theorem panicFree_tail {a : Attempt} {l : List Attempt} (h : panicFree (a :: l)) :
    panicFree l :=
  ⟨fun b hb => h.1 b (List.mem_cons_of_mem a hb), h.2.tail⟩

/-- Under the reset precondition, the reset computation cannot hit the
underflow panic. -/
theorem computeReset_isSome_of_resetOk {a : Attempt} {st : Nat}
    {hdr : Option (List Char)} (hres : resetOk a = true)
    (hr : a.resp = .response st hdr) :
    computeReset hdr a.unix a.mono ≠ none := by
  simp only [resetOk, hr] at hres
  cases hdr with
  | none => simp [computeReset]
  | some s =>
    dsimp only at hres
    cases hps : parseUInt (2 ^ 64) s with
    | ok f =>
      rw [hps] at hres
      simp only [decide_eq_true_eq] at hres
      simp only [computeReset, hps, if_neg (Nat.not_lt.mpr hres)]
      exact Option.some_ne_none _
    | error e =>
      simp only [computeReset, hps]
      exact Option.some_ne_none _

/-- Only a 429 classification produces a `RateLimited` error, and it carries
exactly the computed reset. -/
theorem classifyStatus_eq_rateLimited {st : Nat} {r : Option Nat}
    {url : List Char} {d : Option Nat}
    (h : classifyStatus st r url = .error (.rateLimited d)) :
    st = 429 ∧ r = d := by
  simp only [classifyStatus] at h
  split_ifs at h with h1 h2 h3 h4 h5 h6 h7 <;> simp_all

/-- The deadline produced by classifying a 429 attempt is its
`attemptLimit`. -/
theorem attemptLimit_of_429 {a : Attempt} {hdr : Option (List Char)}
    (hr : a.resp = .response 429 hdr) {r : Option Nat}
    (hc : computeReset hdr a.unix a.mono = some r) :
    attemptLimit a = r := by
  simp only [attemptLimit, hr]
  rw [if_pos trivial]
  cases hdr with
  | none =>
    simp only [computeReset] at hc
    injection hc with hc
  | some s =>
    dsimp only
    cases hps : parseUInt (2 ^ 64) s with
    | ok f =>
      simp only [computeReset, hps] at hc
      by_cases hlt : f < a.unix
      · rw [if_pos hlt] at hc
        exact Option.noConfusion hc
      · rw [if_neg hlt] at hc
        injection hc with hc
        rw [← hc]
        exact if_pos (Nat.le_of_not_lt hlt)
    | error e =>
      simp only [computeReset, hps] at hc
      injection hc with hc

/-- The classification of a well-scripted attempt leaves no stale deadline
for the following attempt. -/
theorem goodRes_classify {a : Attempt} {rest : List Attempt} {st : Nat}
    {hdr : Option (List Char)} {reset : Option Nat}
    (hr : a.resp = .response st hdr)
    (hc : computeReset hdr a.unix a.mono = some reset)
    (hchain : (a :: rest).Chain' sleepOk) (url : List Char) :
    goodRes (classifyStatus st reset url) rest := by
  cases hcl : classifyStatus st reset url with
  | ok u => trivial
  | error e =>
    show goodErr e rest
    intro t het b hb
    subst het
    obtain ⟨h429, hres⟩ := classifyStatus_eq_rateLimited hcl
    subst h429
    have hal : attemptLimit a = some t := by
      rw [attemptLimit_of_429 hr hc, hres]
    have hso : sleepOk a b := (List.chain'_cons'.mp hchain).1 b hb
    exact hso t hal

/-- The retry loop preserves the engine invariant, given that the recursive
`send` does. -/
theorem loopWith_inv (send : List Attempt → SendResult)
    (hsend : ∀ l, panicFree l → Inv (send l)) :
    ∀ iters result rest, panicFree rest → goodRes result rest →
      Inv (loopWith send iters result rest) := by
  intro iters
  induction iters with
  | zero =>
    intro result rest hp hg
    cases result with
    | ok u => exact hp
    | error e => exact ⟨hp, hg⟩
  | succ n ih =>
    intro result rest hp hg
    have hretry : ∀ r1, panicFree r1 →
        Inv (match send r1 with
          | .ok r2 => loopWith send n (.ok ()) r2
          | .err e2 r2 => loopWith send n (.error e2) r2
          | .panicked => SendResult.panicked
          | .exhausted => SendResult.exhausted) := by
      intro r1 hp1
      have hi := hsend r1 hp1
      cases hs : send r1 with
      | ok r2 =>
        rw [hs] at hi
        exact ih (.ok ()) r2 hi trivial
      | err e2 r2 =>
        rw [hs] at hi
        exact ih (.error e2) r2 hi.1 hi.2
      | panicked =>
        rw [hs] at hi
        exact hi.elim
      | exhausted => trivial
    cases result with
    | ok u => exact hp
    | error e =>
      cases e with
      | rateLimited d =>
        cases d with
        | some t =>
          cases rest with
          | nil => trivial
          | cons b bs =>
            have hsl : b.sleepMono ≤ t := hg t rfl b rfl
            show Inv (if t < b.sleepMono then SendResult.panicked
              else match send (b :: bs) with
                | .ok r2 => loopWith send n (.ok ()) r2
                | .err e2 r2 => loopWith send n (.error e2) r2
                | .panicked => SendResult.panicked
                | .exhausted => SendResult.exhausted)
            rw [if_neg (Nat.not_lt.mpr hsl)]
            exact hretry (b :: bs) hp
        | none => exact ⟨hp, hg⟩
      | badRequest => exact ⟨hp, hg⟩
      | badAccessToken => exact ⟨hp, hg⟩
      | badOAuthScope => exact ⟨hp, hg⟩
      | notFound u => exact ⟨hp, hg⟩
      | client st => exact ⟨hp, hg⟩
      | server st => exact hretry rest hp
      | http => exact hretry rest hp
      | serialization => exact hretry rest hp
      | redirect => exact hretry rest hp
      | other => exact hretry rest hp

/-- The fueled engine preserves the invariant on panic-free worlds. -/
theorem sendFuel_inv (path : List Char) (att : Nat) :
    ∀ fuel l, panicFree l → Inv (sendFuel path att fuel l) := by
  intro fuel
  induction fuel with
  | zero => intro l hp; trivial
  | succ n ih =>
    intro l hp
    cases l with
    | nil => trivial
    | cons a rest =>
      have hpr : panicFree rest := panicFree_tail hp
      rw [sendFuel_succ]
      cases hr : a.resp with
      | transport =>
        simp only [sendBody, hr]
        exact ⟨hpr, fun t h => Error.noConfusion h⟩
      | response st hdr =>
        simp only [sendBody, hr]
        have hro : resetOk a = true := hp.1 a (List.mem_cons_self a rest)
        cases hc : computeReset hdr a.unix a.mono with
        | none => exact absurd hc (computeReset_isSome_of_resetOk hro hr)
        | some reset =>
          exact loopWith_inv _ ih (att - 1) _ rest hpr
            (goodRes_classify hr hc hp.2 (apiUrl path))

/-- C10: `send` can panic — a reset header strictly in the wall-clock past
underflows the `u64` subtraction, and a sleep whose deadline has already
passed underflows the `Instant` subtraction — and it is panic-free whenever
the reset timestamps are not in the past at the moments the two
subtractions are evaluated. -/
theorem c10_send_panics :
    sendModel [] 1 [{ resp := .response 429 (some "5".data), unix := 10 }] = .panicked
    ∧ sendModel [] 2 [{ resp := .response 429 (some "100".data), unix := 100, mono := 10 },
        { resp := .response 200 none, sleepMono := 50 }] = .panicked
    ∧ (∀ path att world, panicFree world → sendModel path att world ≠ .panicked) := by
  refine ⟨rfl, rfl, ?_⟩
  intro path att world hpf hcontra
  have hinv := sendFuel_inv path att (world.length + 1) world hpf
  rw [sendModel] at hcontra
  rw [hcontra] at hinv
  exact hinv.elim

/-- C10 witness: the panic-freedom theorem at a concrete world whose reset
header is in the future. -/
theorem c10_send_panics_witness :
    sendModel [] 2 [{ resp := .response 429 (some "70".data), unix := 40, mono := 10 },
      { resp := .response 200 none, sleepMono := 35 }] ≠ .panicked := by
  refine c10_send_panics.2.2 [] 2 _ ⟨?_, ?_⟩
  · intro a ha
    rcases List.mem_cons.mp ha with h | h
    · rw [h]; rfl
    · rw [List.mem_singleton.mp h]; rfl
  · refine List.chain'_cons'.mpr ⟨?_, List.chain'_singleton _⟩
    intro b hb t ht
    injection hb with hb
    subst hb
    have ht2 : some (40 : Nat) = some t := ht
    injection ht2 with ht2
    rw [← ht2]
    decide

end Lifxi
